import Mathlib

/-!
Verification of the monitoring engine of `super-monitor-v3`
(`src/services/monitor.rs`, `src/models/{config,metrics}.rs`, `src/main.rs`).

Modelling conventions:
* `f64` values are modelled as exact rationals (`ℚ`).  All arithmetic the
  engine performs on readings (sums, means, absolute deviations, threshold
  multiplications, comparisons) is exact in `f64` only up to rounding; the
  rational model is the standard idealisation and every concrete input used
  below is exactly representable.
* `f64::sqrt` is modelled by `ratSqrt`, which is exact whenever numerator and
  denominator of its argument are perfect squares (every case exercised by the
  specification's properties); `f64::sqrt` is also exact on those inputs.
* Rust `HashMap`s are modelled as association lists (`getA` = `HashMap::get`,
  `insertA` = `HashMap::insert`).  A `HashMap`'s iteration order is
  unspecified in Rust, so a state whose association list carries the entries
  in any order is a faithful image of a reachable `HashMap` state.
* Rust's `format!("{:.1}", x)` / `format!("{:.0}", x)` are modelled by
  `fmt1` / `fmt0` (round to the given number of decimals, ties to even, as
  Rust's shortest-round-trip formatter does on exactly representable values).
* The fallible/IO-performing operations (`update`'s probing, `save_baseline`,
  `load_baseline`, the spawned commands of `trigger_actions`) are modelled by
  explicit data: `update` takes the probed sample as an argument,
  `save_baseline` returns the JSON document it would write, `load_baseline`
  takes the parsed document, and `trigger_actions` returns the list of OS
  commands it spawns.
-/

attribute [local semireducible] Rat.mul Rat.add Rat.sub Rat.inv Rat.ofScientific

/-! ## Numeric formatting (`format!("{:.1}", _)`, `format!("{:.0}", _)`) -/

/-- Round a rational to the nearest integer, ties to even (the rounding Rust
applies when formatting an exactly representable value with fixed precision). -/
def roundTiesEven (q : ℚ) : ℤ :=
  let f : ℚ := q - (Rat.floor q : ℚ)
  if f < 1/2 then Rat.floor q
  else if 1/2 < f then Rat.floor q + 1
  else if Rat.floor q % 2 = 0 then Rat.floor q else Rat.floor q + 1

/-- Decimal digits of a natural number (most significant first); fuel-indexed
so the recursion is structural. -/
def natDigitsAux : ℕ → ℕ → List Char → List Char
  | 0, _, acc => acc
  | fuel + 1, n, acc =>
    if n = 0 then acc
    else natDigitsAux fuel (n / 10) (Nat.digitChar (n % 10) :: acc)

/-- Decimal digits of a natural number (most significant first). -/
def natDigits (n : ℕ) : List Char :=
  if n = 0 then ['0'] else natDigitsAux n n []

/-- Model of `format!("{:.1}", q)`. -/
def fmt1 (q : ℚ) : String :=
  let n : ℤ := roundTiesEven (q * 10)
  let a : ℕ := n.natAbs
  ⟨(if n < 0 then ['-'] else []) ++ natDigits (a / 10) ++ ['.'] ++ [Nat.digitChar (a % 10)]⟩

/-- Model of `format!("{:.0}", q)`. -/
def fmt0 (q : ℚ) : String :=
  let n : ℤ := roundTiesEven q
  ⟨(if n < 0 then ['-'] else []) ++ natDigits n.natAbs⟩

/-! ## Data model (`src/models/config.rs`, `src/models/metrics.rs`) -/

/-- Struct `MonitoringConfig` (src/models/config.rs). -/
structure MonitoringConfig where
  window_size : ℕ
  update_interval : ℕ
  anomaly_threshold : ℚ
  monitored_hosts : List String
  deriving DecidableEq

/-- Struct `SystemMetrics` (src/models/metrics.rs); the timestamp plays no role in
any claim and is omitted.  `host_status` models the `HashMap<String, f64>`. -/
structure SystemMetrics where
  cpu_percent : ℚ
  ram_percent : ℚ
  disk_percent : ℚ
  temperature : ℚ
  ping_ms : ℚ
  net_connections : ℕ
  failed_logins : ℕ
  host_status : List (String × ℚ)
  deriving DecidableEq

/-- Constructor `SystemMetrics::new` (src/models/metrics.rs). -/
def SystemMetrics.new : SystemMetrics :=
  { cpu_percent := 0, ram_percent := 0, disk_percent := 0, temperature := 0,
    ping_ms := -1, net_connections := 0, failed_logins := 0, host_status := [] }

instance : Inhabited SystemMetrics := ⟨SystemMetrics.new⟩

/-- Struct `BaselineStats` (src/models/metrics.rs). -/
structure BaselineStats where
  mean : ℚ
  std : ℚ
  sample_count : ℕ
  deriving DecidableEq

/-- State `MonitorService` (src/services/monitor.rs).  The `System` handle,
the file lock and the probing helpers are IO details with no bearing on the
claims; `metrics_history` is the `VecDeque` with the front at the list head. -/
structure MonitorService where
  config : MonitoringConfig
  metrics_history : List SystemMetrics
  baselines : List (String × BaselineStats)
  feedback : List (String × Bool)
  current_iocs : List String
  deriving DecidableEq

/-- Lookup, `HashMap::get`, on the association-list model (first matching key wins). -/
def getA {α : Type} : List (String × α) → String → Option α
  | [], _ => none
  | (k, v) :: t, key => if k = key then some v else getA t key

/-- Insertion, `HashMap::insert`, on the association-list model. -/
def insertA {α : Type} (l : List (String × α)) (k : String) (v : α) : List (String × α) :=
  (k, v) :: l.filter (fun p => ¬ p.1 = k)

/-- Constructor `MonitorService::new` composed with the startup `load_baseline`: the
constructor starts from an empty window and empty threat set, with whatever
baselines/feedback the (possibly missing) baseline file supplied. -/
def MonitorService.new (config : MonitoringConfig)
    (loadedBaselines : List (String × BaselineStats))
    (loadedFeedback : List (String × Bool)) : MonitorService :=
  { config := config, metrics_history := [], baselines := loadedBaselines,
    feedback := loadedFeedback, current_iocs := [] }

/-! ## `update` (monitor.rs lines 45-98): the probed readings are passed in as
the sample `m`; only the history bookkeeping (lines 91-95) is state-relevant. -/

/-- Method `MonitorService::update`, lines 91-95: evict the front when the window is
full, then push the new sample at the back. -/
def MonitorService.update (s : MonitorService) (m : SystemMetrics) : MonitorService :=
  { s with metrics_history :=
      (if s.config.window_size ≤ s.metrics_history.length
       then s.metrics_history.tail else s.metrics_history) ++ [m] }

/-- Run a sequence of `update` calls (the scheduler tick loop, main.rs). -/
def runUpdates (s : MonitorService) : List SystemMetrics → MonitorService
  | [] => s
  | m :: rest => runUpdates (s.update m) rest

/-! ## `calculate_stats` and `learn_baseline` (monitor.rs lines 245-303, 484-500) -/

/-- Largest `k ≤ fuel` with `k * k ≤ n`, by linear search (kernel-reducible
integer square root; agrees with `Nat.sqrt` when `n ≤ fuel`). -/
def natSqrtAux : ℕ → ℕ → ℕ → ℕ
  | 0, k, _ => k
  | fuel + 1, k, n => if (k + 1) * (k + 1) ≤ n then natSqrtAux fuel (k + 1) n else k

/-- Integer square root (largest `k` with `k * k ≤ n`). -/
def natSqrt (n : ℕ) : ℕ := natSqrtAux n 0 n

/-- Model of `f64::sqrt`, exact when numerator and denominator are perfect
squares (the only inputs exercised by the properties below; `f64::sqrt` is
exact there too). -/
def ratSqrt (q : ℚ) : ℚ :=
  (natSqrt q.num.toNat : ℚ) / (natSqrt q.den : ℚ)

/-- Function `calculate_stats` (monitor.rs lines 484-500): population mean/std. -/
def calculate_stats (values : List ℚ) : Option BaselineStats :=
  if values.isEmpty then none
  else
    let sum : ℚ := values.foldl (· + ·) 0
    let mean : ℚ := sum / (values.length : ℚ)
    let variance_sum : ℚ := (values.map (fun v => (v - mean) ^ 2)).foldl (· + ·) 0
    let std : ℚ := ratSqrt (variance_sum / (values.length : ℚ))
    some { mean := mean, std := std, sample_count := values.length }

/-- The per-host value series of `learn_baseline` (lines 293-297):
`metrics_history.iter().filter_map(|m| m.host_status.get(host).copied())`. -/
def hostValues (s : MonitorService) (host : String) : List ℚ :=
  s.metrics_history.filterMap (fun m => getA m.host_status host)

/-- One `if let Some(stats) = calculate_stats(..) { insert }` step. -/
def learnStep (bl : List (String × BaselineStats)) (key : String) (values : List ℚ) :
    List (String × BaselineStats) :=
  match calculate_stats values with
  | some stats => insertA bl key stats
  | none => bl

/-- Method `learn_baseline` (monitor.rs lines 245-303). -/
def MonitorService.learn_baseline (s : MonitorService) : MonitorService :=
  if s.metrics_history.length < 20 then s
  else
    let bl := s.baselines
    let bl := learnStep bl "cpu" (s.metrics_history.map (·.cpu_percent))
    let bl := learnStep bl "ram" (s.metrics_history.map (·.ram_percent))
    let bl := learnStep bl "disk" (s.metrics_history.map (·.disk_percent))
    let bl := learnStep bl "temp" (s.metrics_history.map (·.temperature))
    let bl := learnStep bl "ping" (s.metrics_history.map (·.ping_ms))
    let bl := learnStep bl "net" (s.metrics_history.map (fun m => (m.net_connections : ℚ)))
    let bl := learnStep bl "fail" (s.metrics_history.map (fun m => (m.failed_logins : ℚ)))
    let bl := s.config.monitored_hosts.foldl (fun bl host => learnStep bl host (hostValues s host)) bl
    { s with baselines := bl }

/-! ## `detect_anomalies` (monitor.rs lines 305-365) -/

/-- The rendered deviation descriptor of the fixed-signal loop (line 332):
`format!("Anomaly: {} {:.1} (Normal: {:.1}±{:.1})", label, value, mean, std)`. -/
def renderDev (label : String) (value mean std : ℚ) : String :=
  "Anomaly: " ++ label ++ " " ++ fmt1 value ++ " (Normal: " ++ fmt1 mean ++ "±" ++ fmt1 std ++ ")"

/-- The rendered host deviation descriptor (line 346):
`format!("Anomaly: {} {:.1}ms (Normal: {:.1}±{:.1})", host, ping, mean, std)`. -/
def renderHost (host : String) (ping mean std : ℚ) : String :=
  "Anomaly: " ++ host ++ " " ++ fmt1 ping ++ "ms (Normal: " ++ fmt1 mean ++ "±" ++ fmt1 std ++ ")"

/-- The rendered device-down descriptor (line 343). -/
def renderDown (host : String) : String := "Device Down: " ++ host

/-- The rendered threat descriptor (line 356). -/
def renderThreat (ip : String) : String := "Threat IP: " ++ ip

/-- The feedback key (line 327): `format!("{}-{:.0}", metric, value)`. -/
def feedbackKey (metric : String) (value : ℚ) : String := metric ++ "-" ++ fmt0 value

/-- The `checks` vector (lines 315-323), in declaration order. -/
def checksOf (m : SystemMetrics) : List (String × ℚ × String) :=
  [("cpu", m.cpu_percent, "CPU"),
   ("ram", m.ram_percent, "RAM"),
   ("disk", m.disk_percent, "Disk"),
   ("temp", m.temperature, "Temp"),
   ("ping", m.ping_ms, "Ping"),
   ("net", (m.net_connections : ℚ), "Connections"),
   ("fail", (m.failed_logins : ℚ), "Failed Login")]

/-- The body of the fixed-signal loop (lines 325-338): the descriptor pushed
for one `checks` entry, if any. -/
def fixedEmit (s : MonitorService) (c : String × ℚ × String) : Option String :=
  match getA s.baselines c.1 with
  | none => none
  | some baseline =>
    if 0 < baseline.std ∧ |c.2.1 - baseline.mean| > s.config.anomaly_threshold * baseline.std
        ∧ ¬ getA s.feedback (feedbackKey c.1 c.2.1) = some true
    then some (renderDev c.2.2 c.2.1 baseline.mean baseline.std)
    else none

/-- The body of the host loop (lines 341-352): the descriptor pushed for one
`host_status` entry, if any.  Note: no feedback lookup in this branch. -/
def hostEmit (s : MonitorService) (hp : String × ℚ) : Option String :=
  if hp.2 < 0 then some (renderDown hp.1)
  else
    match getA s.baselines hp.1 with
    | none => none
    | some baseline =>
      if 0 < baseline.std ∧ |hp.2 - baseline.mean| > s.config.anomaly_threshold * baseline.std
      then some (renderHost hp.1 hp.2 baseline.mean baseline.std)
      else none

/-- The latest sample, `metrics_history.back().unwrap()` (line 311); the
callers below only use it when the window is nonempty. -/
def latestOf (s : MonitorService) : SystemMetrics :=
  s.metrics_history.getLastD SystemMetrics.new

/-- Method `detect_anomalies` (monitor.rs lines 305-365). -/
def MonitorService.detect_anomalies (s : MonitorService) : List String × Bool :=
  if s.metrics_history.length < 20 then (["Learning..."], false)
  else
    let latest := latestOf s
    let anomalies : List String :=
      (checksOf latest).foldl (fun acc c => acc ++ (fixedEmit s c).toList) []
    let anomalies :=
      latest.host_status.foldl (fun acc hp => acc ++ (hostEmit s hp).toList) anomalies
    let anomalies := s.current_iocs.foldl (fun acc ip => acc ++ [renderThreat ip]) anomalies
    let has_anomaly := !anomalies.isEmpty
    let anomalies := if anomalies.isEmpty then anomalies ++ ["All Normal"] else anomalies
    (anomalies, has_anomaly)


/-! ## `trigger_actions` (monitor.rs lines 386-440) -/

/-- Check that the first list is a prefix of the second (character lists). -/
def isPrefixChars : List Char → List Char → Bool
  | [], _ => true
  | _ :: _, [] => false
  | c :: cs, d :: ds => c = d && isPrefixChars cs ds

/-- Substring test, `str::contains`. -/
def containsSub : List Char → List Char → Bool
  | [], needle => needle.isEmpty
  | h :: t, needle => isPrefixChars needle (h :: t) || containsSub t needle

/-- Test `hay.contains(needle)` on strings. -/
def strContains (hay needle : String) : Bool := containsSub hay.data needle.data

/-- Numeric value of a digit run (big-endian). -/
def digitsToNat (l : List Char) : ℕ :=
  l.foldl (fun a c => 10 * a + (c.toNat - Char.toNat '0')) 0

/-- Exact value of a captured decimal token `digits[.digits]` (model of
`str::parse::<f64>` on such tokens). -/
def parseDec (l : List Char) : ℚ :=
  let ip := l.takeWhile (fun c => ¬ c = '.')
  let fp := (l.dropWhile (fun c => ¬ c = '.')).drop 1
  (digitsToNat ip : ℚ) + (digitsToNat fp : ℚ) / (10 ^ fp.length : ℚ)

/-- The regex `Tmp:(\d+(?:\.\d+)?)` (line 400) applied at one position:
the capture if the whole pattern matches here. -/
def tmpCapAt (l : List Char) : Option (List Char) :=
  if isPrefixChars "Tmp:".data l then
    let r := l.drop 4
    let ds := r.takeWhile (fun c => c.isDigit)
    if ds.isEmpty then none
    else some (ds ++
      (match r.drop ds.length with
       | '.' :: r2 =>
         let fs := r2.takeWhile (fun c => c.isDigit)
         if fs.isEmpty then [] else '.' :: fs
       | _ => []))
  else none

/-- Leftmost match of the regex `Tmp:(\d+(?:\.\d+)?)` (line 400). -/
def scanTmpCap : List Char → Option (List Char)
  | [] => none
  | h :: t =>
    match tmpCapAt (h :: t) with
    | some c => some c
    | none => scanTmpCap t

/-- The regex `Threat IP:\s*([\d.]+)` (line 418) applied at one position. -/
def threatCapAt (l : List Char) : Option (List Char) :=
  if isPrefixChars "Threat IP:".data l then
    let r := (l.drop 10).dropWhile (fun c => c.isWhitespace)
    let ds := r.takeWhile (fun c => c.isDigit || c = '.')
    if ds.isEmpty then none else some ds
  else none

/-- Leftmost match of the regex `Threat IP:\s*([\d.]+)` (line 418). -/
def scanThreatCap : List Char → Option (List Char)
  | [] => none
  | h :: t =>
    match threatCapAt (h :: t) with
    | some c => some c
    | none => scanThreatCap t

/-- One octet of the strict IPv4 regex (line 438):
`25[0-5]|2[0-4][0-9]|[01]?[0-9][0-9]?`. -/
def octetOK : List Char → Bool
  | [a] => a.isDigit
  | [a, b] => a.isDigit && b.isDigit
  | [a, b, c] =>
    (a = '2' && b = '5' && ('0' ≤ c && c ≤ '5')) ||
    (a = '2' && ('0' ≤ b && b ≤ '4') && c.isDigit) ||
    ((a = '0' || a = '1') && b.isDigit && c.isDigit)
  | _ => false

/-- Predicate `is_valid_ip` (monitor.rs lines 437-440). -/
def is_valid_ip (ip : String) : Bool :=
  let parts := ip.data.splitOn '.'
  parts.length == 4 && parts.all octetOK

/-- The OS commands `trigger_actions` can spawn. -/
inductive OsAction where
  | wall
  | shutdown
  | blockIP (ip : String)
  deriving DecidableEq

/-- The commands spawned for a single descriptor (body of the loop at
lines 387-432), in source order. -/
def triggerOne (a : String) : List OsAction :=
  (if strContains a "Device Down" then [OsAction.wall] else []) ++
  (if strContains a "Temp" then
     match scanTmpCap a.data with
     | some cap => if parseDec cap > 80 then [OsAction.shutdown] else []
     | none => []
   else []) ++
  (if strContains a "Threat IP:" then
     match scanThreatCap a.data with
     | some cap =>
       if is_valid_ip (String.mk cap) then [OsAction.blockIP (String.mk cap)] else []
     | none => []
   else [])

/-- Method `trigger_actions` (monitor.rs lines 386-435): the list of OS commands
spawned for the given anomaly list. -/
def trigger_actions (anomalies : List String) : List OsAction :=
  anomalies.foldl (fun acc a => acc ++ triggerOne a) []

/-! ## `save_baseline` / `load_baseline` (monitor.rs lines 442-477) -/

/-- The JSON documents of `serde_json::Value`. -/
inductive JValue where
  | null
  | bool (b : Bool)
  | num (q : ℚ)
  | str (s : String)
  | arr (l : List JValue)
  | obj (l : List (String × JValue))

/-- Serialization of one `BaselineStats` (serde, field declaration order). -/
def baselineToJson (b : BaselineStats) : JValue :=
  .obj [("mean", .num b.mean), ("std", .num b.std), ("sample_count", .num (b.sample_count : ℚ))]

/-- Method `save_baseline` (lines 442-461): the document written to
`data/baseline.json` (the temp-file/rename mechanics are filesystem IO). -/
def save_baseline (s : MonitorService) : JValue :=
  .obj [("baseline", .obj (s.baselines.map (fun p => (p.1, baselineToJson p.2)))),
        ("feedback", .obj (s.feedback.map (fun p => (p.1, JValue.bool p.2))))]

/-- Field access `Value::get` on an object. -/
def jGet : JValue → String → Option JValue
  | .obj l, k => getA l k
  | _, _ => none

/-- Deserialization of one `BaselineStats` (serde: all three fields must be
present and numeric, the count a nonnegative integer). -/
def baselineFromJson (v : JValue) : Option BaselineStats :=
  match jGet v "mean", jGet v "std", jGet v "sample_count" with
  | some (.num m), some (.num sd), some (.num c) =>
    if c.den = 1 ∧ 0 ≤ c.num then some ⟨m, sd, c.num.toNat⟩ else none
  | _, _, _ => none

/-- Deserialization of one feedback flag. -/
def feedbackFromJson : JValue → Option Bool
  | .bool b => some b
  | _ => none

/-- Deserialization of the entries of a string-keyed object: every value must
parse, else the whole map fails (serde `HashMap` deserializer; real states
never carry duplicate keys). -/
def entriesFromJson {α : Type} (f : JValue → Option α) :
    List (String × JValue) → Option (List (String × α))
  | [] => some []
  | (k, v) :: t =>
    match f v, entriesFromJson f t with
    | some a, some rest => some ((k, a) :: rest)
    | _, _ => none

/-- Deserialization of a string-keyed map. -/
def mapFromJson {α : Type} (f : JValue → Option α) : JValue → Option (List (String × α))
  | .obj l => entriesFromJson f l
  | _ => none

/-- Method `load_baseline` (lines 463-477): populate the maps from a parsed
document; a missing `baseline`/`feedback` key is tolerated, a present but
malformed one propagates the error (`?`), modelled as `none`. -/
def load_baseline (s : MonitorService) (doc : JValue) : Option MonitorService :=
  match
    (match jGet doc "baseline" with
     | none => some s
     | some v => (mapFromJson baselineFromJson v).map (fun b => { s with baselines := b }))
  with
  | none => none
  | some s1 =>
    match jGet doc "feedback" with
    | none => some s1
    | some v => (mapFromJson feedbackFromJson v).map (fun f => { s1 with feedback := f })

/-! ## Reachable states (main.rs lines 57-109: the monitor loop runs
`update` then `learn_baseline`; `detect_anomalies`, `trigger_actions`,
`save_baseline` and the HTTP handlers read the state without mutating it;
the feedback/baseline maps seeded at construction come from `load_baseline`). -/

/-- States of the service reachable from construction (with arbitrary
loaded baseline/feedback maps) through ticks of the monitor loop.  A probed
sample's `host_status` keys come from `config.monitored_hosts` (update,
lines 86-89); its readings are arbitrary. -/
inductive Reachable (cfg : MonitoringConfig) (b : List (String × BaselineStats))
    (f : List (String × Bool)) : MonitorService → Prop
  | init : Reachable cfg b f (MonitorService.new cfg b f)
  | update {s : MonitorService} {m : SystemMetrics} : Reachable cfg b f s →
      (∀ p ∈ m.host_status, p.1 ∈ cfg.monitored_hosts) →
      Reachable cfg b f (s.update m)
  | learn {s : MonitorService} : Reachable cfg b f s → Reachable cfg b f s.learn_baseline

/-! ## Decomposition of `detect_anomalies` into its three loops -/

/-- Descriptors pushed by the fixed-signal loop (lines 325-338), in
declaration order of `checks`. -/
def fixedAnomalies (s : MonitorService) : List String :=
  (checksOf (latestOf s)).filterMap (fixedEmit s)

/-- Descriptors pushed by the host loop (lines 341-352), in iteration order
of `latest.host_status`. -/
def hostAnomalies (s : MonitorService) : List String :=
  (latestOf s).host_status.filterMap (hostEmit s)

/-- Descriptors pushed by the threat loop (lines 354-357). -/
def threatAnomalies (s : MonitorService) : List String :=
  s.current_iocs.map renderThreat

theorem foldl_push_filterMap {α β : Type} (f : α → Option β) :
    ∀ (l : List α) (init : List β),
      l.foldl (fun acc c => acc ++ (f c).toList) init = init ++ l.filterMap f := by
  intro l
  induction l with
  | nil => simp
  | cons h t ih =>
    intro init
    cases hf : f h <;> simp [List.filterMap_cons, hf, ih]

theorem foldl_push_map {α β : Type} (f : α → β) :
    ∀ (l : List α) (init : List β),
      l.foldl (fun acc c => acc ++ [f c]) init = init ++ l.map f := by
  intro l
  induction l with
  | nil => simp
  | cons h t ih => intro init; simp [ih]

/-- All descriptors of one detection pass, in emission order. -/
def allAnomalies (s : MonitorService) : List String :=
  fixedAnomalies s ++ hostAnomalies s ++ threatAnomalies s

theorem detect_anomalies_eq (s : MonitorService) (h : ¬ s.metrics_history.length < 20) :
    s.detect_anomalies =
      (if (allAnomalies s).isEmpty then allAnomalies s ++ ["All Normal"] else allAnomalies s,
       !(allAnomalies s).isEmpty) := by
  unfold MonitorService.detect_anomalies
  rw [if_neg h]
  simp only [foldl_push_filterMap, foldl_push_map, List.nil_append]
  simp only [allAnomalies, fixedAnomalies, hostAnomalies, threatAnomalies, List.append_assoc]

theorem detect_anomalies_learning (s : MonitorService) (h : s.metrics_history.length < 20) :
    s.detect_anomalies = (["Learning..."], false) := by
  unfold MonitorService.detect_anomalies
  rw [if_pos h]

/-! ## Association-list lemmas -/

theorem getA_cons {α : Type} (k : String) (v : α) (t : List (String × α)) (key : String) :
    getA ((k, v) :: t) key = if k = key then some v else getA t key := rfl

theorem getA_filter_other {α : Type} (k key : String) (hk : ¬ k = key) :
    ∀ l : List (String × α), getA (l.filter (fun p => ¬ p.1 = k)) key = getA l key := by
  intro l
  induction l with
  | nil => rfl
  | cons p t ih =>
    obtain ⟨a, v⟩ := p
    rw [List.filter_cons]
    by_cases hp : a = k
    · rw [if_neg (by simp [hp])]
      rw [ih, getA_cons, if_neg (by rw [hp]; exact hk)]
    · rw [if_pos (by simp [hp])]
      rw [getA_cons, getA_cons, ih]

theorem getA_insertA_self {α : Type} (l : List (String × α)) (k : String) (v : α) :
    getA (insertA l k v) k = some v := by
  simp [insertA, getA]

theorem getA_insertA_other {α : Type} (l : List (String × α)) (k key : String) (v : α)
    (hk : ¬ k = key) : getA (insertA l k v) key = getA l key := by
  show getA ((k, v) :: l.filter (fun p => ¬ p.1 = k)) key = getA l key
  rw [getA_cons, if_neg hk, getA_filter_other k key hk l]

/-! ## State bookkeeping lemmas -/

theorem learn_baseline_history (s : MonitorService) :
    s.learn_baseline.metrics_history = s.metrics_history := by
  unfold MonitorService.learn_baseline; split <;> rfl

theorem learn_baseline_config (s : MonitorService) :
    s.learn_baseline.config = s.config := by
  unfold MonitorService.learn_baseline; split <;> rfl

theorem learn_baseline_iocs (s : MonitorService) :
    s.learn_baseline.current_iocs = s.current_iocs := by
  unfold MonitorService.learn_baseline; split <;> rfl

theorem learn_baseline_feedback (s : MonitorService) :
    s.learn_baseline.feedback = s.feedback := by
  unfold MonitorService.learn_baseline; split <;> rfl

theorem update_len (s : MonitorService) (m : SystemMetrics) :
    (s.update m).metrics_history.length =
      (if s.config.window_size ≤ s.metrics_history.length
       then s.metrics_history.length - 1 else s.metrics_history.length) + 1 := by
  unfold MonitorService.update
  split <;> simp

theorem reachable_config {cfg : MonitoringConfig} {b : List (String × BaselineStats)}
    {f : List (String × Bool)} {s : MonitorService} (h : Reachable cfg b f s) :
    s.config = cfg := by
  induction h with
  | init => rfl
  | update _ _ ih => exact ih
  | learn _ ih => rw [learn_baseline_config]; exact ih

theorem reachable_iocs {cfg : MonitoringConfig} {b : List (String × BaselineStats)}
    {f : List (String × Bool)} {s : MonitorService} (h : Reachable cfg b f s) :
    s.current_iocs = [] := by
  induction h with
  | init => rfl
  | update _ _ ih => exact ih
  | learn _ ih => rw [learn_baseline_iocs]; exact ih

theorem reachable_feedback {cfg : MonitoringConfig} {b : List (String × BaselineStats)}
    {f : List (String × Bool)} {s : MonitorService} (h : Reachable cfg b f s) :
    s.feedback = f := by
  induction h with
  | init => rfl
  | update _ _ ih => exact ih
  | learn _ ih => rw [learn_baseline_feedback]; exact ih

theorem reachable_len {cfg : MonitoringConfig} {b : List (String × BaselineStats)}
    {f : List (String × Bool)} {s : MonitorService} (h : Reachable cfg b f s) :
    s.metrics_history.length ≤ max cfg.window_size 1 := by
  induction h with
  | init => simp [MonitorService.new]
  | @update s' m hr _ ih =>
    rw [update_len, reachable_config hr]
    split <;> omega
  | learn _ ih => rw [learn_baseline_history]; exact ih

theorem runUpdates_config : ∀ (l : List SystemMetrics) (s : MonitorService),
    (runUpdates s l).config = s.config := by
  intro l
  induction l with
  | nil => intro s; rfl
  | cons m t ih => intro s; exact ih (s.update m)

theorem runUpdates_len : ∀ (l : List SystemMetrics) (s : MonitorService),
    1 ≤ s.config.window_size → s.metrics_history.length ≤ s.config.window_size →
    (runUpdates s l).metrics_history.length =
      min (s.metrics_history.length + l.length) s.config.window_size := by
  intro l
  induction l with
  | nil =>
    intro s _ hle
    show s.metrics_history.length = _
    simp only [List.length_nil]
    omega
  | cons m t ih =>
    intro s hws hle
    have hlen := update_len s m
    have hcfg : (s.update m).config = s.config := rfl
    have hle2 : (s.update m).metrics_history.length ≤ s.config.window_size := by
      rw [hlen]; split <;> omega
    have h2 := ih (s.update m) (by rw [hcfg]; exact hws) (by rw [hcfg]; exact hle2)
    show (runUpdates (s.update m) t).metrics_history.length = _
    rw [h2, hcfg]
    by_cases hc : s.config.window_size ≤ s.metrics_history.length
    · rw [if_pos hc] at hlen
      rw [hlen]
      simp only [List.length_cons]
      omega
    · rw [if_neg hc] at hlen
      rw [hlen]
      simp only [List.length_cons]
      omega

theorem reachable_runUpdates (cfg : MonitoringConfig) (b : List (String × BaselineStats))
    (f : List (String × Bool)) : ∀ (l : List SystemMetrics),
    (∀ m ∈ l, ∀ p ∈ m.host_status, p.1 ∈ cfg.monitored_hosts) →
    ∀ s, Reachable cfg b f s → Reachable cfg b f (runUpdates s l) := by
  intro l
  induction l with
  | nil => intro _ s hs; exact hs
  | cons m t ih =>
    intro hm s hs
    exact ih (fun x hx => hm x (List.mem_cons_of_mem m hx))
      (s.update m) (Reachable.update hs (hm m (List.mem_cons_self m t)))

/-! ## Character-level structure of rendered descriptors -/

/-- The characters `fmt1`/`fmt0` can produce. -/
def numCharB (c : Char) : Bool := c.isDigit || c = '.' || c = '-'

theorem digitChar_isDigit : ∀ d : ℕ, d < 10 → (Nat.digitChar d).isDigit = true := by decide

theorem natDigitsAux_chars : ∀ (fuel n : ℕ) (acc : List Char),
    (∀ c ∈ acc, c.isDigit = true) → ∀ c ∈ natDigitsAux fuel n acc, c.isDigit = true := by
  intro fuel
  induction fuel with
  | zero => intro n acc hacc; exact hacc
  | succ f ih =>
    intro n acc hacc c hc
    rw [natDigitsAux] at hc
    by_cases hn : n = 0
    · rw [if_pos hn] at hc; exact hacc c hc
    · rw [if_neg hn] at hc
      refine ih (n / 10) _ ?_ c hc
      intro x hx
      rcases List.mem_cons.mp hx with h | h
      · subst h; exact digitChar_isDigit _ (Nat.mod_lt _ (by decide))
      · exact hacc x h

theorem natDigits_chars (n : ℕ) : ∀ c ∈ natDigits n, c.isDigit = true := by
  unfold natDigits
  by_cases hn : n = 0
  · rw [if_pos hn]; intro c hc; rcases List.mem_singleton.mp hc with h; subst h; decide
  · rw [if_neg hn]; exact natDigitsAux_chars n n [] (by intro c hc; cases hc)

theorem fmt1_data (q : ℚ) : (fmt1 q).data =
    (if roundTiesEven (q * 10) < 0 then ['-'] else [])
      ++ natDigits ((roundTiesEven (q * 10)).natAbs / 10)
      ++ ['.'] ++ [Nat.digitChar ((roundTiesEven (q * 10)).natAbs % 10)] := rfl

theorem fmt1_chars (q : ℚ) : ∀ c ∈ (fmt1 q).data, numCharB c = true := by
  intro c hc
  rw [fmt1_data] at hc
  simp only [List.append_assoc, List.mem_append, List.mem_singleton] at hc
  rcases hc with h | h | h | h
  · revert h; split <;> intro h
    · rcases List.mem_singleton.mp h with rfl; decide
    · cases h
  · have := natDigits_chars _ c h; simp [numCharB, this]
  · subst h; decide
  · subst h
    have hd := digitChar_isDigit ((roundTiesEven (q * 10)).natAbs % 10) (Nat.mod_lt _ (by decide))
    simp [numCharB, hd]

theorem fmt1_ends_digit (q : ℚ) : ∃ l d, (fmt1 q).data = l ++ [d] ∧ d.isDigit = true := by
  refine ⟨(if roundTiesEven (q * 10) < 0 then ['-'] else [])
      ++ natDigits ((roundTiesEven (q * 10)).natAbs / 10) ++ ['.'],
    Nat.digitChar ((roundTiesEven (q * 10)).natAbs % 10), ?_, ?_⟩
  · rw [fmt1_data]
  · exact digitChar_isDigit _ (Nat.mod_lt _ (by decide))

/-- In `a₁ ++ c₁ :: b₁ = a₂ ++ c₂ :: b₂`, if the `aᵢ` consist of characters
satisfying `P` and the separators `cᵢ` do not satisfy `P`, the decomposition
is unique (first position failing `P`). -/
theorem sepUnique {P : Char → Bool} : ∀ (a1 a2 : List Char) (c1 c2 : Char) (b1 b2 : List Char),
    a1 ++ c1 :: b1 = a2 ++ c2 :: b2 →
    (∀ c ∈ a1, P c = true) → (∀ c ∈ a2, P c = true) →
    P c1 = false → P c2 = false →
    a1 = a2 ∧ c1 = c2 ∧ b1 = b2 := by
  intro a1
  induction a1 with
  | nil =>
    intro a2 c1 c2 b1 b2 heq ha1 ha2 hc1 hc2
    cases a2 with
    | nil =>
      simp only [List.nil_append] at heq
      injection heq with h1 h2
      exact ⟨rfl, h1, h2⟩
    | cons d t =>
      simp only [List.nil_append, List.cons_append] at heq
      injection heq with h1 h2
      have : P c1 = true := by rw [h1]; exact ha2 d (List.mem_cons_self d t)
      rw [hc1] at this; exact absurd this (by decide)
  | cons d t1 ih =>
    intro a2 c1 c2 b1 b2 heq ha1 ha2 hc1 hc2
    cases a2 with
    | nil =>
      simp only [List.cons_append, List.nil_append] at heq
      injection heq with h1 h2
      have : P c2 = true := by rw [← h1]; exact ha1 d (List.mem_cons_self d t1)
      rw [hc2] at this; exact absurd this (by decide)
    | cons e t2 =>
      simp only [List.cons_append] at heq
      injection heq with h1 h2
      obtain ⟨ha, hc, hb⟩ := ih t2 c1 c2 b1 b2 h2
        (fun c hc => ha1 c (List.mem_cons_of_mem d hc))
        (fun c hc => ha2 c (List.mem_cons_of_mem e hc)) hc1 hc2
      refine ⟨?_, hc, hb⟩
      rw [h1, ha]

theorem numChar_of_ne {x : Char} (hx : numCharB x = false) {c : Char}
    (hc : numCharB c = true) : (!(c == x)) = true := by
  by_cases h : c = x
  · subst h; rw [hc] at hx; exact absurd hx (by decide)
  · simp [h]

theorem stringDataInj {a b : String} (h : a.data = b.data) : a = b := by
  cases a; cases b; exact congrArg String.mk h

theorem renderDev_rev (l : String) (v m sd : ℚ) :
    (renderDev l v m sd).data.reverse =
      ')' :: ((fmt1 sd).data.reverse ++ '±' :: ((fmt1 m).data.reverse ++ ' ' ::
        ([':', 'l', 'a', 'm', 'r', 'o', 'N', '(', ' '] ++ ((fmt1 v).data.reverse ++ ' ' ::
          (l.data.reverse ++ [' ', ':', 'y', 'l', 'a', 'm', 'o', 'n', 'A']))))) := by
  simp [renderDev, String.data_append, List.reverse_append]

theorem renderHost_rev (h : String) (p m sd : ℚ) :
    (renderHost h p m sd).data.reverse =
      ')' :: ((fmt1 sd).data.reverse ++ '±' :: ((fmt1 m).data.reverse ++ ' ' ::
        ([':', 'l', 'a', 'm', 'r', 'o', 'N', '(', ' '] ++ ('s' :: 'm' :: ((fmt1 p).data.reverse ++ ' ' ::
          (h.data.reverse ++ [' ', ':', 'y', 'l', 'a', 'm', 'o', 'n', 'A'])))))) := by
  simp [renderHost, String.data_append, List.reverse_append]

theorem renderDev_take2 (l : String) (v m sd : ℚ) :
    (renderDev l v m sd).data.take 2 = ['A', 'n'] := rfl

theorem renderHost_take2 (h : String) (p m sd : ℚ) :
    (renderHost h p m sd).data.take 2 = ['A', 'n'] := rfl

theorem renderDown_take2 (h : String) : (renderDown h).data.take 2 = ['D', 'e'] := rfl

theorem renderThreat_take2 (ip : String) : (renderThreat ip).data.take 2 = ['T', 'h'] := rfl

theorem renderDev_ne_renderHost (l : String) (v m sd : ℚ) (h : String) (p m2 sd2 : ℚ) :
    renderDev l v m sd ≠ renderHost h p m2 sd2 := by
  intro he
  have hr := congrArg (fun s : String => s.data.reverse) he
  simp only [renderDev_rev, renderHost_rev] at hr
  injection hr with hr0 h1
  obtain ⟨_, _, h2⟩ := sepUnique (P := fun c => !(c == '±')) _ _ _ _ _ _ h1
    (fun c hc => numChar_of_ne (by decide) (fmt1_chars sd c (List.mem_reverse.mp hc)))
    (fun c hc => numChar_of_ne (by decide) (fmt1_chars sd2 c (List.mem_reverse.mp hc)))
    (by decide) (by decide)
  obtain ⟨_, _, h3⟩ := sepUnique (P := numCharB) _ _ _ _ _ _ h2
    (fun c hc => fmt1_chars m c (List.mem_reverse.mp hc))
    (fun c hc => fmt1_chars m2 c (List.mem_reverse.mp hc))
    (by decide) (by decide)
  have h4 := List.append_cancel_left h3
  obtain ⟨pre, d, hfv, hd⟩ := fmt1_ends_digit v
  rw [hfv] at h4
  simp only [List.reverse_append, List.reverse_singleton, List.singleton_append,
    List.cons_append] at h4
  injection h4 with h5 h6
  rw [h5] at hd
  exact absurd hd (by decide)

theorem renderHost_host_inj (h1 : String) (p1 m1 s1 : ℚ) (h2 : String) (p2 m2 s2 : ℚ)
    (he : renderHost h1 p1 m1 s1 = renderHost h2 p2 m2 s2) : h1 = h2 := by
  have hr := congrArg (fun s : String => s.data.reverse) he
  simp only [renderHost_rev] at hr
  injection hr with hr0 ha
  obtain ⟨_, _, hb⟩ := sepUnique (P := fun c => !(c == '±')) _ _ _ _ _ _ ha
    (fun c hc => numChar_of_ne (by decide) (fmt1_chars s1 c (List.mem_reverse.mp hc)))
    (fun c hc => numChar_of_ne (by decide) (fmt1_chars s2 c (List.mem_reverse.mp hc)))
    (by decide) (by decide)
  obtain ⟨_, _, hc⟩ := sepUnique (P := numCharB) _ _ _ _ _ _ hb
    (fun c hcc => fmt1_chars m1 c (List.mem_reverse.mp hcc))
    (fun c hcc => fmt1_chars m2 c (List.mem_reverse.mp hcc))
    (by decide) (by decide)
  have hd := List.append_cancel_left hc
  injection hd with hd1 hd2
  injection hd2 with hd21 hd3
  obtain ⟨_, _, he2⟩ := sepUnique (P := numCharB) _ _ _ _ _ _ hd3
    (fun c hcc => fmt1_chars p1 c (List.mem_reverse.mp hcc))
    (fun c hcc => fmt1_chars p2 c (List.mem_reverse.mp hcc))
    (by decide) (by decide)
  have hf := List.append_cancel_right he2
  exact stringDataInj (List.reverse_inj.mp hf)

theorem renderDev_label2 (l : String) (v m sd : ℚ) (c1 c2 : Char) (rest : List Char)
    (hl : l.data = c1 :: c2 :: rest) :
    ((renderDev l v m sd).data.drop 9).take 2 = [c1, c2] := by
  have hd : (renderDev l v m sd).data =
      "Anomaly: ".data ++ (l.data ++
        (" " ++ fmt1 v ++ " (Normal: " ++ fmt1 m ++ "±" ++ fmt1 sd ++ ")").data) := by
    simp [renderDev, String.data_append, List.append_assoc]
  rw [hd, show (9 : ℕ) = "Anomaly: ".data.length from by decide, List.drop_left, hl]
  rfl

theorem renderDev_label_first2 {l1 l2 : String} {v1 m1 s1 v2 m2 s2 : ℚ}
    {c1 c2 d1 d2 : Char} {r1 r2 : List Char}
    (hl1 : l1.data = c1 :: c2 :: r1) (hl2 : l2.data = d1 :: d2 :: r2)
    (hne : ¬ (c1 = d1 ∧ c2 = d2)) :
    renderDev l1 v1 m1 s1 ≠ renderDev l2 v2 m2 s2 := by
  intro he
  have h2 := congrArg (fun s : String => (s.data.drop 9).take 2) he
  simp only [renderDev_label2 _ _ _ _ _ _ _ hl1, renderDev_label2 _ _ _ _ _ _ _ hl2] at h2
  injection h2 with ha hb
  injection hb with hb
  exact hne ⟨ha, hb⟩

/-! ## Shape of emitted descriptors and membership in the output -/

theorem fixedEmit_some {s : MonitorService} {me : String} {vv : ℚ} {lb : String} {a : String}
    (h : fixedEmit s (me, vv, lb) = some a) :
    ∃ b, getA s.baselines me = some b ∧ 0 < b.std ∧
      |vv - b.mean| > s.config.anomaly_threshold * b.std ∧
      ¬ getA s.feedback (feedbackKey me vv) = some true ∧
      a = renderDev lb vv b.mean b.std := by
  unfold fixedEmit at h
  dsimp only at h
  cases hb : getA s.baselines me with
  | none => rw [hb] at h; exact Option.noConfusion h
  | some b =>
    rw [hb] at h
    dsimp only at h
    split at h
    · rename_i hcond
      injection h with h2
      exact ⟨b, rfl, hcond.1, hcond.2.1, hcond.2.2, h2.symm⟩
    · exact Option.noConfusion h

theorem fixedEmit_of_cond {s : MonitorService} {me : String} {vv : ℚ} {lb : String}
    {b : BaselineStats} (hb : getA s.baselines me = some b) (h1 : 0 < b.std)
    (h2 : |vv - b.mean| > s.config.anomaly_threshold * b.std)
    (h3 : ¬ getA s.feedback (feedbackKey me vv) = some true) :
    fixedEmit s (me, vv, lb) = some (renderDev lb vv b.mean b.std) := by
  unfold fixedEmit
  dsimp only
  rw [hb]
  exact if_pos ⟨h1, h2, h3⟩

theorem hostEmit_some {s : MonitorService} {hh : String} {pp : ℚ} {a : String}
    (h : hostEmit s (hh, pp) = some a) :
    (pp < 0 ∧ a = renderDown hh) ∨
    (¬ pp < 0 ∧ ∃ b, getA s.baselines hh = some b ∧ 0 < b.std ∧
      |pp - b.mean| > s.config.anomaly_threshold * b.std ∧
      a = renderHost hh pp b.mean b.std) := by
  unfold hostEmit at h
  dsimp only at h
  split at h
  · rename_i hneg
    injection h with h2
    exact Or.inl ⟨hneg, h2.symm⟩
  · rename_i hpos
    cases hb : getA s.baselines hh with
    | none => rw [hb] at h; exact Option.noConfusion h
    | some b =>
      rw [hb] at h
      dsimp only at h
      split at h
      · rename_i hcond
        injection h with h2
        exact Or.inr ⟨hpos, b, rfl, hcond.1, hcond.2, h2.symm⟩
      · exact Option.noConfusion h

theorem ne_of_take2 {x y : String} {cx cy : List Char} (hx : x.data.take 2 = cx)
    (hy : y.data.take 2 = cy) (hne : ¬ cx = cy) : ¬ x = y := by
  intro h
  apply hne
  rw [← hx, ← hy, h]

theorem mem_detect_output {s : MonitorService} (h20 : ¬ s.metrics_history.length < 20)
    {a : String} (ha : a ∈ (s.detect_anomalies).1) :
    a = "All Normal" ∨ a ∈ fixedAnomalies s ∨ a ∈ hostAnomalies s ∨ a ∈ threatAnomalies s := by
  rw [detect_anomalies_eq s h20] at ha
  by_cases he : (allAnomalies s).isEmpty
  · rw [if_pos he] at ha
    rw [List.isEmpty_iff] at he
    rw [he] at ha
    simp at ha
    exact Or.inl ha
  · rw [if_neg he] at ha
    rcases List.mem_append.mp ha with h | h
    · rcases List.mem_append.mp h with h2 | h2
      · exact Or.inr (Or.inl h2)
      · exact Or.inr (Or.inr (Or.inl h2))
    · exact Or.inr (Or.inr (Or.inr h))

theorem allNormal_take2 : ("All Normal" : String).data.take 2 = ['A', 'l'] := rfl

theorem detect_output_of_mem {s : MonitorService} (h20 : ¬ s.metrics_history.length < 20)
    {a : String} (ha : a ∈ allAnomalies s) : a ∈ (s.detect_anomalies).1 := by
  rw [detect_anomalies_eq s h20]
  have hne : ¬ (allAnomalies s).isEmpty := by
    rw [List.isEmpty_iff]
    exact List.ne_nil_of_mem ha
  rw [if_neg hne]
  exact ha

theorem renderDev_mem_fixed {s : MonitorService} (h20 : ¬ s.metrics_history.length < 20)
    {lb : String} {v m sd : ℚ} (hin : renderDev lb v m sd ∈ (s.detect_anomalies).1) :
    ∃ c ∈ checksOf (latestOf s), fixedEmit s c = some (renderDev lb v m sd) := by
  rcases mem_detect_output h20 hin with hAN | hfix | hhost | hthr
  · exact absurd hAN (ne_of_take2 (renderDev_take2 lb v m sd) allNormal_take2 (by decide))
  · exact List.mem_filterMap.mp hfix
  · rcases List.mem_filterMap.mp hhost with ⟨hp, _, hemit⟩
    rcases hostEmit_some hemit with ⟨_, hEq⟩ | ⟨_, b, _, _, _, hEq⟩
    · exact absurd hEq (ne_of_take2 (renderDev_take2 lb v m sd) (renderDown_take2 hp.1) (by decide))
    · exact absurd hEq (renderDev_ne_renderHost lb v m sd hp.1 hp.2 b.mean b.std)
  · rcases List.mem_map.mp hthr with ⟨ip, _, hEq⟩
    exact absurd hEq.symm (ne_of_take2 (renderDev_take2 lb v m sd) (renderThreat_take2 ip) (by decide))

theorem renderHost_mem_host {s : MonitorService} (h20 : ¬ s.metrics_history.length < 20)
    {hh : String} {p m sd : ℚ} (hin : renderHost hh p m sd ∈ (s.detect_anomalies).1) :
    ∃ hp ∈ (latestOf s).host_status, hostEmit s hp = some (renderHost hh p m sd) ∧ hp.1 = hh := by
  rcases mem_detect_output h20 hin with hAN | hfix | hhost | hthr
  · exact absurd hAN (ne_of_take2 (renderHost_take2 hh p m sd) allNormal_take2 (by decide))
  · rcases List.mem_filterMap.mp hfix with ⟨c, _, hemit⟩
    obtain ⟨b, _, _, _, _, hEq⟩ := fixedEmit_some hemit
    exact absurd hEq.symm (renderDev_ne_renderHost c.2.2 c.2.1 b.mean b.std hh p m sd)
  · rcases List.mem_filterMap.mp hhost with ⟨hp, hmem, hemit⟩
    rcases hostEmit_some hemit with ⟨_, hEq⟩ | ⟨_, b, _, _, _, hEq⟩
    · exact absurd hEq (ne_of_take2 (renderHost_take2 hh p m sd) (renderDown_take2 hp.1) (by decide))
    · exact ⟨hp, hmem, by rw [hemit, hEq], (renderHost_host_inj hp.1 hp.2 b.mean b.std hh p m sd hEq.symm)⟩
  · rcases List.mem_map.mp hthr with ⟨ip, _, hEq⟩
    exact absurd hEq.symm (ne_of_take2 (renderHost_take2 hh p m sd) (renderThreat_take2 ip) (by decide))

/-! ## Characterization of fixed-signal deviation descriptors -/

theorem fixed_descriptor_iff (s : MonitorService) (h20 : ¬ s.metrics_history.length < 20)
    (metric : String) (value : ℚ) (label : String)
    (hmem : (metric, value, label) ∈ checksOf (latestOf s)) :
    (∃ m sd, renderDev label value m sd ∈ (s.detect_anomalies).1) ↔
      (∃ b, getA s.baselines metric = some b ∧ 0 < b.std ∧
        |value - b.mean| > s.config.anomaly_threshold * b.std ∧
        ¬ getA s.feedback (feedbackKey metric value) = some true) := by
  constructor
  · rintro ⟨m, sd, hin⟩
    obtain ⟨c, hc, hemit⟩ := renderDev_mem_fixed h20 hin
    obtain ⟨me1, vv1, lb1⟩ := c
    obtain ⟨b2, hb2, h1, h2, h3, heq⟩ := fixedEmit_some hemit
    simp only [checksOf, List.mem_cons, List.not_mem_nil, or_false, Prod.mk.injEq] at hmem hc
    rcases hmem with hA | hA | hA | hA | hA | hA | hA <;>
      obtain ⟨rfl, rfl, rfl⟩ := hA <;>
      rcases hc with hB | hB | hB | hB | hB | hB | hB <;>
      obtain ⟨rfl, rfl, rfl⟩ := hB <;>
      first
        | exact absurd heq (renderDev_label_first2 rfl rfl (by decide))
        | exact ⟨b2, hb2, h1, h2, h3⟩
  · rintro ⟨b, hb, h1, h2, h3⟩
    refine ⟨b.mean, b.std, ?_⟩
    apply detect_output_of_mem h20
    have hmem2 : renderDev label value b.mean b.std ∈ fixedAnomalies s :=
      List.mem_filterMap.mpr ⟨(metric, value, label), hmem, fixedEmit_of_cond hb h1 h2 h3⟩
    exact List.mem_append_left _ (List.mem_append_left _ hmem2)

/-! ## Baselines with zero standard deviation never flag -/

theorem fixed_std_zero_not_mem (s : MonitorService) (h20 : ¬ s.metrics_history.length < 20)
    (metric : String) (value : ℚ) (label : String)
    (hmem : (metric, value, label) ∈ checksOf (latestOf s))
    (b : BaselineStats) (hb : getA s.baselines metric = some b) (hstd : b.std = 0) :
    ∀ v m sd, renderDev label v m sd ∉ (s.detect_anomalies).1 := by
  intro v m sd hin
  obtain ⟨c, hc, hemit⟩ := renderDev_mem_fixed h20 hin
  obtain ⟨me1, vv1, lb1⟩ := c
  obtain ⟨b2, hb2, h1, h2, h3, heq⟩ := fixedEmit_some hemit
  simp only [checksOf, List.mem_cons, List.not_mem_nil, or_false, Prod.mk.injEq] at hmem hc
  rcases hmem with hA | hA | hA | hA | hA | hA | hA <;>
    obtain ⟨rfl, rfl, rfl⟩ := hA <;>
    rcases hc with hB | hB | hB | hB | hB | hB | hB <;>
    obtain ⟨rfl, rfl, rfl⟩ := hB <;>
    first
      | exact absurd heq (renderDev_label_first2 rfl rfl (by decide))
      | (rw [hb] at hb2; injection hb2 with hbe; rw [← hbe, hstd] at h1; exact absurd h1 (lt_irrefl 0))

theorem host_std_zero_not_mem (s : MonitorService) (h20 : ¬ s.metrics_history.length < 20)
    (hh : String) (b : BaselineStats) (hb : getA s.baselines hh = some b) (hstd : b.std = 0) :
    ∀ p m sd, renderHost hh p m sd ∉ (s.detect_anomalies).1 := by
  intro p m sd hin
  obtain ⟨hp, _, hemit, hfst⟩ := renderHost_mem_host h20 hin
  obtain ⟨h1, p1⟩ := hp
  rcases hostEmit_some hemit with ⟨_, hEq⟩ | ⟨_, b2, hb2, h1std, _, hEq⟩
  · exact absurd hEq (ne_of_take2 (renderHost_take2 hh p m sd) (renderDown_take2 h1) (by decide))
  · have hfst2 : h1 = hh := hfst
    rw [hfst2] at hb2
    rw [hb] at hb2
    injection hb2 with hbe
    rw [← hbe, hstd] at h1std
    exact absurd h1std (lt_irrefl 0)

/-! ## Concrete states used by the claims -/

/-- A configuration with no monitored hosts (threshold 3, window 60). -/
def cfgNoHosts : MonitoringConfig :=
  { window_size := 60, update_interval := 5, anomaly_threshold := 3, monitored_hosts := [] }

/-- A sample whose temperature reading is 85. -/
def tempSample : SystemMetrics := { SystemMetrics.new with temperature := 85 }

/-- A full window of hot samples with a learned temperature baseline 40±1. -/
def tempState : MonitorService :=
  { config := cfgNoHosts, metrics_history := List.replicate 20 tempSample,
    baselines := [("temp", ⟨40, 1, 20⟩)], feedback := [], current_iocs := [] }

/-- A sample with the given CPU reading. -/
def cpuSample (v : ℚ) : SystemMetrics := { SystemMetrics.new with cpu_percent := v }

/-- A full window of samples with CPU reading `v` and CPU baseline 15±5. -/
def cpuState (v : ℚ) : MonitorService :=
  { config := cfgNoHosts, metrics_history := List.replicate 20 (cpuSample v),
    baselines := [("cpu", ⟨15, 5, 20⟩)], feedback := [], current_iocs := [] }

/-- A configuration monitoring the host `8.8.8.8`. -/
def hostCfg : MonitoringConfig :=
  { window_size := 60, update_interval := 5, anomaly_threshold := 3,
    monitored_hosts := ["8.8.8.8"] }

/-- A sample whose host map reports ping 50 for `8.8.8.8`. -/
def hostSample : SystemMetrics := { SystemMetrics.new with host_status := [("8.8.8.8", 50)] }

/-- A full window of host samples with host baseline 15±5 and the
`(8.8.8.8, 50)` feedback key dismissed. -/
def hostStateDismissed : MonitorService :=
  { config := hostCfg, metrics_history := List.replicate 20 hostSample,
    baselines := [("8.8.8.8", ⟨15, 5, 20⟩)], feedback := [("8.8.8.8-50", true)],
    current_iocs := [] }

/-- The CPU-50 window with the `cpu-50` feedback key dismissed. -/
def cpuStateDismissed : MonitorService := { cpuState 50 with feedback := [("cpu-50", true)] }

/-- A full window of CPU-1000 samples with a zero-std CPU baseline. -/
def cpuStdZeroState : MonitorService :=
  { config := cfgNoHosts, metrics_history := List.replicate 20 (cpuSample 1000),
    baselines := [("cpu", ⟨15, 0, 20⟩)], feedback := [], current_iocs := [] }

/-- C1.  The spec says a temperature descriptor above 80.0 makes
`trigger_actions` issue an OS shutdown.  The code cannot: `detect_anomalies`
renders `Anomaly: Temp 85.0 (Normal: 40.0±1.0)` while the shutdown branch
re-parses with the regex `Tmp:(\d+(?:\.\d+)?)` (the `status_report` wording),
which never matches a descriptor, so no command is spawned at all. -/
theorem c1_temp_shutdown_never_fires :
    tempState.detect_anomalies = (["Anomaly: Temp 85.0 (Normal: 40.0±1.0)"], true) ∧
    (85 : ℚ) > 80 ∧
    trigger_actions (tempState.detect_anomalies).1 = [] ∧
    OsAction.shutdown ∉ trigger_actions (tempState.detect_anomalies).1 := by
  refine ⟨by decide, by decide, by decide, by decide⟩

/-- C2.  Past cold start, a deviation descriptor for a fixed signal is in the
output of `detect_anomalies` iff a baseline exists for the signal, its std is
positive, the deviation exceeds `threshold × std`, and the
`(signal, rounded value)` feedback key is not dismissed. -/
theorem c2_fixed_deviation_iff (s : MonitorService) (h20 : 20 ≤ s.metrics_history.length)
    (metric : String) (value : ℚ) (label : String)
    (hmem : (metric, value, label) ∈ checksOf (latestOf s)) :
    (∃ m sd, renderDev label value m sd ∈ (s.detect_anomalies).1) ↔
      (∃ b, getA s.baselines metric = some b ∧ 0 < b.std ∧
        |value - b.mean| > s.config.anomaly_threshold * b.std ∧
        ¬ getA s.feedback (feedbackKey metric value) = some true) :=
  fixed_descriptor_iff s (by omega) metric value label hmem

/-- C2 witness: with baseline 15±5 and threshold 3, a CPU reading of 50.0 is
flagged and a reading of 20.0 is not. -/
theorem c2_fixed_deviation_iff_witness :
    (∃ m sd, renderDev "CPU" 50 m sd ∈ ((cpuState 50).detect_anomalies).1) ∧
    ¬ (∃ m sd, renderDev "CPU" 20 m sd ∈ ((cpuState 20).detect_anomalies).1) := by
  constructor
  · exact (c2_fixed_deviation_iff (cpuState 50) (by decide) "cpu" 50 "CPU" (by decide)).mpr
      ⟨⟨15, 5, 20⟩, by decide, by decide, by decide, by decide⟩
  · intro hex
    obtain ⟨b, hb, _, h2, _⟩ :=
      (c2_fixed_deviation_iff (cpuState 20) (by decide) "cpu" 20 "CPU" (by decide)).mp hex
    have hc : getA (cpuState 20).baselines "cpu" = some ⟨15, 5, 20⟩ := by decide
    rw [hc] at hb
    injection hb with hbe
    rw [← hbe] at h2
    exact absurd h2 (by decide)

/-- C4 counterexample: the host branch of `detect_anomalies` performs no
feedback lookup, so a dismissed `(host, rounded value)` pair is flagged
again: with host baseline 15±5, ping 50 and feedback key `8.8.8.8-50`
dismissed, the host deviation descriptor is still emitted. -/
theorem c4_host_feedback_counterexample :
    getA hostStateDismissed.feedback (feedbackKey "8.8.8.8" 50) = some true ∧
    renderHost "8.8.8.8" 50 15 5 ∈ (hostStateDismissed.detect_anomalies).1 := by
  refine ⟨by decide, by decide⟩

/-- C4 amended: feedback suppression holds for the seven fixed signals: once
the `(signal, rounded value)` key is dismissed, no deviation descriptor for
that signal and value is emitted (monitored hosts are not suppressed, see the
counterexample). -/
theorem c4_feedback_suppression_fixed (s : MonitorService)
    (h20 : 20 ≤ s.metrics_history.length)
    (metric : String) (value : ℚ) (label : String)
    (hmem : (metric, value, label) ∈ checksOf (latestOf s))
    (hdis : getA s.feedback (feedbackKey metric value) = some true) :
    ∀ m sd, renderDev label value m sd ∉ (s.detect_anomalies).1 := by
  intro m sd hin
  obtain ⟨b, _, _, _, h3⟩ :=
    (fixed_descriptor_iff s (by omega) metric value label hmem).mp ⟨m, sd, hin⟩
  exact h3 hdis

/-- C4 witness: with the `cpu-50` key dismissed, the CPU-50 descriptor that
would otherwise fire (baseline 15±5, threshold 3) is suppressed. -/
theorem c4_feedback_suppression_fixed_witness :
    renderDev "CPU" 50 15 5 ∉ ((cpuStateDismissed).detect_anomalies).1 :=
  c4_feedback_suppression_fixed cpuStateDismissed (by decide) "cpu" 50 "CPU"
    (by decide) (by decide) 15 5

/-- C5.  A signal (fixed or host) whose baseline has standard deviation 0 is
never flagged with a deviation descriptor, whatever the latest value. -/
theorem c5_std_zero_never_flagged (s : MonitorService)
    (h20 : 20 ≤ s.metrics_history.length) :
    (∀ metric value label, (metric, value, label) ∈ checksOf (latestOf s) →
      ∀ b, getA s.baselines metric = some b → b.std = 0 →
      ∀ v m sd, renderDev label v m sd ∉ (s.detect_anomalies).1) ∧
    (∀ hh b, getA s.baselines hh = some b → b.std = 0 →
      ∀ p m sd, renderHost hh p m sd ∉ (s.detect_anomalies).1) :=
  ⟨fun metric value label hmem b hb hstd =>
      fixed_std_zero_not_mem s (by omega) metric value label hmem b hb hstd,
   fun hh b hb hstd => host_std_zero_not_mem s (by omega) hh b hb hstd⟩

/-- C5 witness: a CPU baseline 15±0 does not flag even a reading of 1000. -/
theorem c5_std_zero_never_flagged_witness :
    renderDev "CPU" 1000 15 0 ∉ ((cpuStdZeroState).detect_anomalies).1 :=
  (c5_std_zero_never_flagged cpuStdZeroState (by decide)).1 "cpu" 1000 "CPU"
    (by decide) ⟨15, 0, 20⟩ (by decide) rfl 1000 15 0

/-! ## C6, C7, C9, C10 -/

theorem runUpdates_len_le : ∀ (l : List SystemMetrics) (s : MonitorService),
    s.metrics_history.length ≤ max s.config.window_size 1 →
    (runUpdates s l).metrics_history.length ≤ max s.config.window_size 1 := by
  intro l
  induction l with
  | nil => intro s h; exact h
  | cons m t ih =>
    intro s h
    have hcfg : (s.update m).config = s.config := rfl
    have hlen := update_len s m
    have h2 : (s.update m).metrics_history.length ≤ max (s.update m).config.window_size 1 := by
      rw [hcfg, hlen]; split <;> omega
    have h3 := ih (s.update m) h2
    rw [hcfg] at h3
    exact h3

/-- A ten-sample window configuration (smaller than the 20-sample learning
threshold). -/
def smallCfg : MonitoringConfig :=
  { window_size := 10, update_interval := 5, anomaly_threshold := 3, monitored_hosts := [] }

/-- The state after 20 updates under `smallCfg`. -/
def smallState : MonitorService :=
  runUpdates (MonitorService.new smallCfg [] []) (List.replicate 20 SystemMetrics.new)

/-- C6 counterexample: with `window_size = 10`, twenty samples have been
collected, yet `detect_anomalies` still takes the cold-start branch (it tests
the current window length, not the number of samples ever collected). -/
theorem c6_small_window_counterexample :
    smallCfg.window_size = 10 ∧
    (List.replicate 20 SystemMetrics.new).length = 20 ∧
    Reachable smallCfg [] [] smallState ∧
    smallState.detect_anomalies = (["Learning..."], false) := by
  refine ⟨rfl, by decide,
    reachable_runUpdates smallCfg [] [] _ (by decide) _ Reachable.init, by decide⟩

/-- C6 amended: provided `window_size ≥ 20`, a run from the empty window
returns the single `Learning...` descriptor with flag `false` iff fewer than
20 samples have ever been collected, and in that state the list has exactly
one element. -/
theorem c6_learning_iff_window (cfg : MonitoringConfig) (b : List (String × BaselineStats))
    (f : List (String × Bool)) (samples : List SystemMetrics) (hws : 20 ≤ cfg.window_size) :
    ((runUpdates (MonitorService.new cfg b f) samples).detect_anomalies = (["Learning..."], false)
      ↔ samples.length < 20) ∧
    (samples.length < 20 →
      ((runUpdates (MonitorService.new cfg b f) samples).detect_anomalies).1.length = 1) := by
  have hlen : (runUpdates (MonitorService.new cfg b f) samples).metrics_history.length
      = min samples.length cfg.window_size := by
    have h := runUpdates_len samples (MonitorService.new cfg b f)
      (show 1 ≤ cfg.window_size by omega) (by simp [MonitorService.new])
    simpa [MonitorService.new] using h
  constructor
  · constructor
    · intro hdet
      by_contra hge
      push_neg at hge
      have h20 : ¬ (runUpdates (MonitorService.new cfg b f) samples).metrics_history.length < 20 := by
        rw [hlen]; omega
      rw [detect_anomalies_eq _ h20] at hdet
      by_cases he : (allAnomalies (runUpdates (MonitorService.new cfg b f) samples)).isEmpty
      · rw [if_pos he] at hdet
        have h1 := congrArg Prod.fst hdet
        dsimp at h1
        rw [List.isEmpty_iff.mp he, List.nil_append] at h1
        exact absurd h1 (by decide)
      · rw [if_neg he] at hdet
        have h2 := congrArg Prod.snd hdet
        dsimp at h2
        simp at h2
        exact he (List.isEmpty_iff.mpr h2)
    · intro hlt
      exact detect_anomalies_learning _ (by rw [hlen]; omega)
  · intro hlt
    rw [detect_anomalies_learning _ (by rw [hlen]; omega)]
    rfl

/-- C6 witness: with the default 60-sample window, five collected samples
leave the detector in the cold-start state. -/
theorem c6_learning_iff_window_witness :
    (runUpdates (MonitorService.new cfgNoHosts [] [])
      (List.replicate 5 SystemMetrics.new)).detect_anomalies = (["Learning..."], false) :=
  (c6_learning_iff_window cfgNoHosts [] [] (List.replicate 5 SystemMetrics.new)
    (by decide)).1.mpr (by decide)

/-- C7 amended: past cold start the output is the fixed-signal descriptors in
declaration order of `checks`, then the host descriptors in the iteration
order of the latest sample's host-status map (which is *not* the
configuration order, see the counterexample), then the threat descriptors;
`All Normal` only when all three segments are empty. -/
theorem c7_descriptor_ordering (s : MonitorService) (h20 : 20 ≤ s.metrics_history.length) :
    (s.detect_anomalies).1 =
      (if (fixedAnomalies s ++ hostAnomalies s ++ threatAnomalies s).isEmpty
       then ["All Normal"]
       else fixedAnomalies s ++ hostAnomalies s ++ threatAnomalies s) ∧
    fixedAnomalies s = (checksOf (latestOf s)).filterMap (fixedEmit s) ∧
    hostAnomalies s = (latestOf s).host_status.filterMap (hostEmit s) ∧
    threatAnomalies s = s.current_iocs.map renderThreat := by
  refine ⟨?_, rfl, rfl, rfl⟩
  rw [detect_anomalies_eq s (by omega)]
  dsimp only
  simp only [allAnomalies]
  by_cases he : (fixedAnomalies s ++ hostAnomalies s ++ threatAnomalies s).isEmpty
  · rw [if_pos he, if_pos he, List.isEmpty_iff.mp he, List.nil_append]
  · rw [if_neg he, if_neg he]

/-- C7 witness: the ordering equation evaluated at a concrete state. -/
theorem c7_descriptor_ordering_witness :
    ((hostStateDismissed).detect_anomalies).1 =
      (if (fixedAnomalies hostStateDismissed ++ hostAnomalies hostStateDismissed
            ++ threatAnomalies hostStateDismissed).isEmpty
       then ["All Normal"]
       else fixedAnomalies hostStateDismissed ++ hostAnomalies hostStateDismissed
            ++ threatAnomalies hostStateDismissed) :=
  (c7_descriptor_ordering hostStateDismissed (by decide)).1

/-- Configuration listing `1.1.1.1` before `8.8.8.8`. -/
def orderCfg : MonitoringConfig :=
  { window_size := 60, update_interval := 5, anomaly_threshold := 3,
    monitored_hosts := ["1.1.1.1", "8.8.8.8"] }

/-- A sample whose host-status map iterates `8.8.8.8` before `1.1.1.1`
(a `HashMap` iterates in unspecified order), both unreachable. -/
def orderSample : SystemMetrics :=
  { SystemMetrics.new with host_status := [("8.8.8.8", -1), ("1.1.1.1", -1)] }

/-- The state after 20 such samples. -/
def orderState : MonitorService :=
  runUpdates (MonitorService.new orderCfg [] []) (List.replicate 20 orderSample)

/-- C7 counterexample: the host descriptors follow the host-status map's
iteration order, not the configuration order: config lists `1.1.1.1` first,
yet `8.8.8.8` is reported first. -/
theorem c7_host_order_counterexample :
    orderState.config.monitored_hosts = ["1.1.1.1", "8.8.8.8"] ∧
    Reachable orderCfg [] [] orderState ∧
    (orderState.detect_anomalies).1 = ["Device Down: 8.8.8.8", "Device Down: 1.1.1.1"] := by
  refine ⟨by decide,
    reachable_runUpdates orderCfg [] [] _ (by decide) _ Reachable.init, by decide⟩

/-- A zero-sized window configuration. -/
def zeroCfg : MonitoringConfig :=
  { window_size := 0, update_interval := 5, anomaly_threshold := 3, monitored_hosts := [] }

/-- C9 counterexample: with `window_size = 0` the window still holds one
sample after an update (`pop_front` on an empty deque is a no-op, then the
push happens), violating the `≤ window_size` bound. -/
theorem c9_zero_window_counterexample :
    zeroCfg.window_size = 0 ∧
    ((MonitorService.new zeroCfg [] []).update SystemMetrics.new).metrics_history.length = 1 := by
  exact ⟨rfl, by decide⟩

/-- C9 amended: from the empty window the history never exceeds
`max window_size 1` (and never exceeds `window_size` when that is positive),
and an update on a full window evicts exactly the oldest sample, preserving
the order of the rest. -/
theorem c9_window_bound_eviction (cfg : MonitoringConfig) (b : List (String × BaselineStats))
    (f : List (String × Bool)) (samples : List SystemMetrics) :
    ((1 ≤ cfg.window_size →
        (runUpdates (MonitorService.new cfg b f) samples).metrics_history.length ≤ cfg.window_size) ∧
      (runUpdates (MonitorService.new cfg b f) samples).metrics_history.length ≤ max cfg.window_size 1) ∧
    (∀ (s : MonitorService) (m : SystemMetrics),
      s.config.window_size ≤ s.metrics_history.length →
      (s.update m).metrics_history = s.metrics_history.tail ++ [m]) := by
  refine ⟨⟨?_, ?_⟩, ?_⟩
  · intro h1
    have h := runUpdates_len samples (MonitorService.new cfg b f) h1 (by simp [MonitorService.new])
    have h2 : (runUpdates (MonitorService.new cfg b f) samples).metrics_history.length
        = min samples.length cfg.window_size := by simpa [MonitorService.new] using h
    rw [h2]
    omega
  · exact runUpdates_len_le samples _ (by simp [MonitorService.new])
  · intro s m h
    simp [MonitorService.update, h]

/-- A two-sample window configuration. -/
def cfgWin2 : MonitoringConfig :=
  { window_size := 2, update_interval := 5, anomaly_threshold := 3, monitored_hosts := [] }

/-- C9 witness: three updates into a window of two stay within the bound, and
an update on the full window drops exactly the oldest sample. -/
theorem c9_window_bound_eviction_witness :
    (runUpdates (MonitorService.new cfgWin2 [] [])
        [cpuSample 1, cpuSample 2, cpuSample 3]).metrics_history.length ≤ 2 ∧
    ((runUpdates (MonitorService.new cfgWin2 [] []) [cpuSample 1, cpuSample 2]).update
        (cpuSample 3)).metrics_history
      = (runUpdates (MonitorService.new cfgWin2 [] [])
          [cpuSample 1, cpuSample 2]).metrics_history.tail ++ [cpuSample 3] := by
  constructor
  · exact (c9_window_bound_eviction cfgWin2 [] []
      [cpuSample 1, cpuSample 2, cpuSample 3]).1.1 (by decide)
  · exact (c9_window_bound_eviction cfgWin2 [] [] []).2 _ (cpuSample 3) (by decide)

/-- C10 amended: in every reachable state the threat-indicator set is empty
and no `Threat IP` descriptor is ever emitted; `trigger_actions` can however
still issue a firewall block when a *host* descriptor embeds the
`Threat IP:` marker (see the counterexample), so the never-blocks clause of
the original claim does not hold. -/
theorem c10_no_threat_descriptors {cfg : MonitoringConfig}
    {b : List (String × BaselineStats)} {f : List (String × Bool)} {s : MonitorService}
    (h : Reachable cfg b f s) :
    s.current_iocs = [] ∧ threatAnomalies s = [] ∧
    ∀ ip, renderThreat ip ∉ (s.detect_anomalies).1 := by
  have hio := reachable_iocs h
  refine ⟨hio, by unfold threatAnomalies; rw [hio]; rfl, ?_⟩
  intro ip hin
  by_cases h20 : s.metrics_history.length < 20
  · rw [detect_anomalies_learning s h20] at hin
    have := List.mem_singleton.mp hin
    exact absurd this (ne_of_take2 (renderThreat_take2 ip)
      (show ("Learning..." : String).data.take 2 = ['L', 'e'] from rfl) (by decide))
  · rcases mem_detect_output h20 hin with hAN | hfix | hhost | hthr
    · exact absurd hAN (ne_of_take2 (renderThreat_take2 ip) allNormal_take2 (by decide))
    · rcases List.mem_filterMap.mp hfix with ⟨c, _, hemit⟩
      obtain ⟨me1, vv1, lb1⟩ := c
      obtain ⟨b2, _, _, _, _, hEq⟩ := fixedEmit_some hemit
      exact absurd hEq (ne_of_take2 (renderThreat_take2 ip)
        (renderDev_take2 lb1 vv1 b2.mean b2.std) (by decide))
    · rcases List.mem_filterMap.mp hhost with ⟨hp, _, hemit⟩
      obtain ⟨h1, p1⟩ := hp
      rcases hostEmit_some hemit with ⟨_, hEq⟩ | ⟨_, b2, _, _, _, hEq⟩
      · exact absurd hEq (ne_of_take2 (renderThreat_take2 ip) (renderDown_take2 h1) (by decide))
      · exact absurd hEq (ne_of_take2 (renderThreat_take2 ip)
          (renderHost_take2 h1 p1 b2.mean b2.std) (by decide))
    · unfold threatAnomalies at hthr
      rw [hio] at hthr
      simp at hthr

/-- C10 witness: the freshly constructed service has no threat indicators and
emits no threat descriptor. -/
theorem c10_no_threat_descriptors_witness :
    (MonitorService.new cfgNoHosts [] []).current_iocs = [] ∧
    renderThreat "6.6.6.6" ∉ ((MonitorService.new cfgNoHosts [] []).detect_anomalies).1 := by
  have h := c10_no_threat_descriptors (@Reachable.init cfgNoHosts [] [])
  exact ⟨h.1, h.2.2 "6.6.6.6"⟩

/-- A configuration whose monitored host is named with an embedded threat
marker. -/
def spoofCfg : MonitoringConfig :=
  { window_size := 60, update_interval := 5, anomaly_threshold := 3,
    monitored_hosts := ["Threat IP: 6.6.6.6"] }

/-- A sample reporting that host as unreachable. -/
def spoofSample : SystemMetrics :=
  { SystemMetrics.new with host_status := [("Threat IP: 6.6.6.6", -1)] }

/-- The state after 20 such samples. -/
def spoofState : MonitorService :=
  runUpdates (MonitorService.new spoofCfg [] []) (List.replicate 20 spoofSample)

/-- C10 counterexample: although the threat set stays empty, a reachable
state (host literally named `Threat IP: 6.6.6.6`) makes its `Device Down`
descriptor match the threat-branch regex of `trigger_actions`, which then
issues a firewall block. -/
theorem c10_firewall_counterexample :
    Reachable spoofCfg [] [] spoofState ∧
    OsAction.blockIP "6.6.6.6" ∈ trigger_actions (spoofState.detect_anomalies).1 := by
  refine ⟨reachable_runUpdates spoofCfg [] [] _ (by decide) _ Reachable.init, by decide⟩

/-! ## C8: store round-trip -/

theorem baselineFromJson_toJson (b : BaselineStats) :
    baselineFromJson (baselineToJson b) = some b := by
  obtain ⟨mean, std, cnt⟩ := b
  show baselineFromJson (JValue.obj [("mean", .num mean), ("std", .num std),
    ("sample_count", .num (cnt : ℚ))]) = _
  unfold baselineFromJson jGet
  dsimp only
  have h1 : getA [("mean", JValue.num mean), ("std", JValue.num std),
      ("sample_count", JValue.num (cnt : ℚ))] "mean" = some (JValue.num mean) := rfl
  have h2 : getA [("mean", JValue.num mean), ("std", JValue.num std),
      ("sample_count", JValue.num (cnt : ℚ))] "std" = some (JValue.num std) := rfl
  have h3 : getA [("mean", JValue.num mean), ("std", JValue.num std),
      ("sample_count", JValue.num (cnt : ℚ))] "sample_count" = some (JValue.num (cnt : ℚ)) := rfl
  rw [h1, h2, h3]
  dsimp only
  rw [if_pos ⟨Rat.den_natCast cnt, by rw [Rat.num_natCast]; exact Int.natCast_nonneg cnt⟩]
  rw [Rat.num_natCast, Int.toNat_natCast]

theorem entriesFromJson_map {α : Type} (f : JValue → Option α) (g : α → JValue)
    (hfg : ∀ a, f (g a) = some a) :
    ∀ l : List (String × α), entriesFromJson f (l.map (fun p => (p.1, g p.2))) = some l := by
  intro l
  induction l with
  | nil => rfl
  | cons p t ih =>
    show entriesFromJson f ((p.1, g p.2) :: t.map (fun p => (p.1, g p.2))) = some (p :: t)
    unfold entriesFromJson
    rw [hfg p.2, ih]

/-- C8.  Saving the baseline/feedback maps and loading the produced document
restores exactly the same maps (same keys, equal mean, std, sample count and
flags), whatever service the document is loaded into. -/
theorem c8_save_load_roundtrip (s0 s : MonitorService) :
    load_baseline s0 (save_baseline s) =
      some { s0 with baselines := s.baselines, feedback := s.feedback } := by
  have hb : jGet (save_baseline s) "baseline"
      = some (JValue.obj (s.baselines.map (fun p => (p.1, baselineToJson p.2)))) := rfl
  have hf : jGet (save_baseline s) "feedback"
      = some (JValue.obj (s.feedback.map (fun p => (p.1, JValue.bool p.2)))) := rfl
  have hmb : mapFromJson baselineFromJson
      (JValue.obj (s.baselines.map (fun p => (p.1, baselineToJson p.2)))) = some s.baselines := by
    unfold mapFromJson
    exact entriesFromJson_map baselineFromJson baselineToJson baselineFromJson_toJson s.baselines
  have hmf : mapFromJson feedbackFromJson
      (JValue.obj (s.feedback.map (fun p => (p.1, JValue.bool p.2)))) = some s.feedback := by
    unfold mapFromJson
    exact entriesFromJson_map feedbackFromJson JValue.bool (fun _ => rfl) s.feedback
  unfold load_baseline
  rw [hb]
  dsimp only
  rw [hmb]
  dsimp only [Option.map]
  rw [hf]
  dsimp only
  rw [hmf]

/-! ## C3: baseline learning computes population statistics -/

/-- The arithmetic mean, as the spec words it ("mean equals the arithmetic
mean of exactly the entries currently in the window"). -/
def specMean (l : List ℚ) : ℚ := l.sum / (l.length : ℚ)

/-- The population variance, as the spec words it ("sum of squared deviations
divided by N, not N−1"). -/
def specVariance (l : List ℚ) : ℚ :=
  ((l.map (fun v => (v - specMean l) ^ 2)).sum) / (l.length : ℚ)

theorem foldl_add_eq_sum (l : List ℚ) : ∀ a : ℚ, l.foldl (· + ·) a = a + l.sum := by
  induction l with
  | nil => intro a; simp
  | cons h t ih => intro a; simp [List.foldl_cons, ih, List.sum_cons]; ring

theorem calculate_stats_eq (l : List ℚ) (h : ¬ l = []) :
    calculate_stats l = some ⟨specMean l, ratSqrt (specVariance l), l.length⟩ := by
  unfold calculate_stats
  rw [if_neg (by simpa [List.isEmpty_iff] using h)]
  dsimp only
  rw [foldl_add_eq_sum, foldl_add_eq_sum]
  simp [specMean, specVariance]

theorem getA_learnStep_other (bl : List (String × BaselineStats)) (k key : String)
    (vals : List ℚ) (hne : ¬ k = key) : getA (learnStep bl k vals) key = getA bl key := by
  unfold learnStep
  split
  · exact getA_insertA_other bl k key _ hne
  · rfl

theorem getA_learnStep_self (bl : List (String × BaselineStats)) (k : String)
    (vals : List ℚ) (h : ¬ vals = []) :
    getA (learnStep bl k vals) k =
      some ⟨specMean vals, ratSqrt (specVariance vals), vals.length⟩ := by
  unfold learnStep
  rw [calculate_stats_eq vals h]
  exact getA_insertA_self bl k _

theorem getA_learnfold_other (s : MonitorService) (key : String) :
    ∀ (hosts : List String) (bl : List (String × BaselineStats)), key ∉ hosts →
    getA (hosts.foldl (fun bl host => learnStep bl host (hostValues s host)) bl) key
      = getA bl key := by
  intro hosts
  induction hosts with
  | nil => intro bl _; rfl
  | cons h t ih =>
    intro bl hk
    simp only [List.mem_cons, not_or] at hk
    show getA (t.foldl _ (learnStep bl h (hostValues s h))) key = getA bl key
    rw [ih _ hk.2]
    exact getA_learnStep_other bl h key _ (fun he => hk.1 he.symm)

theorem getA_learnfold_mem (s : MonitorService) :
    ∀ (hosts : List String) (bl : List (String × BaselineStats)) (h : String),
    h ∈ hosts → ¬ hostValues s h = [] →
    getA (hosts.foldl (fun bl host => learnStep bl host (hostValues s host)) bl) h
      = some ⟨specMean (hostValues s h), ratSqrt (specVariance (hostValues s h)),
          (hostValues s h).length⟩ := by
  intro hosts
  induction hosts with
  | nil => intro bl h hmem; cases hmem
  | cons h0 t ih =>
    intro bl h hmem hne
    by_cases ht : h ∈ t
    · exact ih _ h ht hne
    · have he : h = h0 := by
        rcases List.mem_cons.mp hmem with he | ht2
        · exact he
        · exact absurd ht2 ht
      subst he
      show getA (t.foldl _ (learnStep bl h (hostValues s h))) h = _
      rw [getA_learnfold_other s h t _ ht]
      exact getA_learnStep_self _ _ _ hne

/-- C3.  Once the window holds at least 20 samples, `learn_baseline` stores,
for every fixed signal and every monitored host with data, a baseline whose
mean is the arithmetic mean of exactly the values in the window, whose std is
the population standard deviation (divide by N, then square root), and whose
sample count is N. -/
theorem c3_learn_baseline_population_stats (s : MonitorService)
    (h20 : 20 ≤ s.metrics_history.length)
    (hdisj : ∀ h ∈ s.config.monitored_hosts,
      h ∉ (["cpu", "ram", "disk", "temp", "ping", "net", "fail"] : List String)) :
    (getA s.learn_baseline.baselines "cpu" =
        some ⟨specMean (s.metrics_history.map (·.cpu_percent)),
          ratSqrt (specVariance (s.metrics_history.map (·.cpu_percent))),
          s.metrics_history.length⟩) ∧
    (getA s.learn_baseline.baselines "ram" =
        some ⟨specMean (s.metrics_history.map (·.ram_percent)),
          ratSqrt (specVariance (s.metrics_history.map (·.ram_percent))),
          s.metrics_history.length⟩) ∧
    (getA s.learn_baseline.baselines "disk" =
        some ⟨specMean (s.metrics_history.map (·.disk_percent)),
          ratSqrt (specVariance (s.metrics_history.map (·.disk_percent))),
          s.metrics_history.length⟩) ∧
    (getA s.learn_baseline.baselines "temp" =
        some ⟨specMean (s.metrics_history.map (·.temperature)),
          ratSqrt (specVariance (s.metrics_history.map (·.temperature))),
          s.metrics_history.length⟩) ∧
    (getA s.learn_baseline.baselines "ping" =
        some ⟨specMean (s.metrics_history.map (·.ping_ms)),
          ratSqrt (specVariance (s.metrics_history.map (·.ping_ms))),
          s.metrics_history.length⟩) ∧
    (getA s.learn_baseline.baselines "net" =
        some ⟨specMean (s.metrics_history.map (fun m => (m.net_connections : ℚ))),
          ratSqrt (specVariance (s.metrics_history.map (fun m => (m.net_connections : ℚ)))),
          s.metrics_history.length⟩) ∧
    (getA s.learn_baseline.baselines "fail" =
        some ⟨specMean (s.metrics_history.map (fun m => (m.failed_logins : ℚ))),
          ratSqrt (specVariance (s.metrics_history.map (fun m => (m.failed_logins : ℚ)))),
          s.metrics_history.length⟩) ∧
    (∀ h ∈ s.config.monitored_hosts, ¬ hostValues s h = [] →
      getA s.learn_baseline.baselines h =
        some ⟨specMean (hostValues s h), ratSqrt (specVariance (hostValues s h)),
          (hostValues s h).length⟩) := by
  have hhist : ¬ s.metrics_history = [] := by
    intro h
    rw [h] at h20
    simp at h20
  have hnotin : ∀ key ∈ (["cpu", "ram", "disk", "temp", "ping", "net", "fail"] : List String),
      key ∉ s.config.monitored_hosts := fun key hklist hkhosts => hdisj key hkhosts hklist
  have hmapne : ∀ f : SystemMetrics → ℚ, ¬ s.metrics_history.map f = [] := by
    intro f h
    exact hhist (List.map_eq_nil_iff.mp h)
  unfold MonitorService.learn_baseline
  rw [if_neg (by omega)]
  dsimp only
  refine ⟨?_, ?_, ?_, ?_, ?_, ?_, ?_, ?_⟩
  · rw [getA_learnfold_other s "cpu" _ _ (hnotin "cpu" (by decide)),
      getA_learnStep_other _ "fail" "cpu" _ (by decide),
      getA_learnStep_other _ "net" "cpu" _ (by decide),
      getA_learnStep_other _ "ping" "cpu" _ (by decide),
      getA_learnStep_other _ "temp" "cpu" _ (by decide),
      getA_learnStep_other _ "disk" "cpu" _ (by decide),
      getA_learnStep_other _ "ram" "cpu" _ (by decide),
      getA_learnStep_self _ "cpu" _ (hmapne _), List.length_map]
  · rw [getA_learnfold_other s "ram" _ _ (hnotin "ram" (by decide)),
      getA_learnStep_other _ "fail" "ram" _ (by decide),
      getA_learnStep_other _ "net" "ram" _ (by decide),
      getA_learnStep_other _ "ping" "ram" _ (by decide),
      getA_learnStep_other _ "temp" "ram" _ (by decide),
      getA_learnStep_other _ "disk" "ram" _ (by decide),
      getA_learnStep_self _ "ram" _ (hmapne _), List.length_map]
  · rw [getA_learnfold_other s "disk" _ _ (hnotin "disk" (by decide)),
      getA_learnStep_other _ "fail" "disk" _ (by decide),
      getA_learnStep_other _ "net" "disk" _ (by decide),
      getA_learnStep_other _ "ping" "disk" _ (by decide),
      getA_learnStep_other _ "temp" "disk" _ (by decide),
      getA_learnStep_self _ "disk" _ (hmapne _), List.length_map]
  · rw [getA_learnfold_other s "temp" _ _ (hnotin "temp" (by decide)),
      getA_learnStep_other _ "fail" "temp" _ (by decide),
      getA_learnStep_other _ "net" "temp" _ (by decide),
      getA_learnStep_other _ "ping" "temp" _ (by decide),
      getA_learnStep_self _ "temp" _ (hmapne _), List.length_map]
  · rw [getA_learnfold_other s "ping" _ _ (hnotin "ping" (by decide)),
      getA_learnStep_other _ "fail" "ping" _ (by decide),
      getA_learnStep_other _ "net" "ping" _ (by decide),
      getA_learnStep_self _ "ping" _ (hmapne _), List.length_map]
  · rw [getA_learnfold_other s "net" _ _ (hnotin "net" (by decide)),
      getA_learnStep_other _ "fail" "net" _ (by decide),
      getA_learnStep_self _ "net" _ (hmapne _), List.length_map]
  · rw [getA_learnfold_other s "fail" _ _ (hnotin "fail" (by decide)),
      getA_learnStep_self _ "fail" _ (hmapne _), List.length_map]
  · intro h hmem hvne
    exact getA_learnfold_mem s _ _ h hmem hvne

/-- The window of ten 10.0 readings followed by ten 20.0 readings. -/
def mixState : MonitorService :=
  { config := cfgNoHosts,
    metrics_history := List.replicate 10 (cpuSample 10) ++ List.replicate 10 (cpuSample 20),
    baselines := [], feedback := [], current_iocs := [] }

/-- C3 witness: ten 10.0s and ten 20.0s yield mean 15.0, std 5.0, count 20. -/
theorem c3_learn_baseline_population_stats_witness :
    getA (mixState.learn_baseline).baselines "cpu" = some ⟨15, 5, 20⟩ :=
  ((c3_learn_baseline_population_stats mixState (by decide) (by decide)).1).trans (by decide)
